import Mathlib

/-!
Shallow embedding of the StockSage repository (a FastAPI front door over an
LLM-agent pipeline with three external tool adapters) and proofs of the
specification claims about it.

External effects (HTTP requests via the `requests` library, the LLM calls of
the agent framework) are modelled as explicit oracles passed to the embedded
functions: an oracle maps a request (or a request index, for code that may
issue several requests) to the outcome Python would observe — a decoded
response or the string representation of a raised exception.  All embedded
functions are total Lean functions, mirroring the fact that the Python
functions under study catch the exceptions they are specified to catch.
-/

namespace StockSage

/-! ## Web scraper tool (src/web_intelligence_agent/web_scraper_tool.py) -/

/-- Outcome of `requests.get(url)` followed by `raise_for_status()` and
HTML parsing, for one URL.  `success` carries the normalized markup the
scraper would produce from the page (`BeautifulSoup(...).prettify()`, a
string that is never Python `None`); `failure` carries `str(e)` of the
raised `requests.exceptions.RequestException`. -/
inductive FetchOutcome where
  | success (html : String)
  | failure (err : String)
deriving DecidableEq, Repr

/-- Return value of `WebScraper.scrape`: the dict
`{'ok': ..., 'html_content': ..., 'error': ...}`.  On success the Python
dict has no `'error'` key; `scraped.get('error')` then yields `None`,
modelled here as `error := none`. -/
structure ScrapeResult where
  ok : Bool
  html_content : Option String
  error : Option String
deriving DecidableEq, Repr

/-- Embedding of `WebScraper.scrape(url)`: one fetch attempt whose outcome is
given by the `fetch` oracle; success yields `ok=True` with the page markup,
a `RequestException` yields `ok=False` with the error string and
`html_content=None`. -/
def WebScraper.scrape (fetch : String → FetchOutcome) (url : String) : ScrapeResult :=
  match fetch url with
  | .success html => { ok := true, html_content := some html, error := none }
  | .failure e => { ok := false, html_content := none, error := some e }

/-- One record of the search-results list fed to `scrape_links`: the code
reads `result['link']` with mandatory bracket access and `result.get('title')`
/ `result.get('snippet')` with defaulting access. -/
structure SearchRecord where
  title : Option String
  snippet : Option String
  link : String
deriving DecidableEq, Repr

/-- The input dict of `scrape_links`, reduced to the only field the function
reads: `results.get('results', [])`. -/
structure SearchResults where
  results : List SearchRecord
deriving DecidableEq, Repr

/-- One entry of the output list of `scrape_links`. -/
structure ScrapedEntry where
  title : Option String
  snippet : Option String
  url : String
  html_content : Option String
  error : Option String
deriving DecidableEq, Repr

/-- The return value of `scrape_links`. -/
structure ScrapeLinksResult where
  ok : Bool
  results : List ScrapedEntry
deriving DecidableEq, Repr

/-- Embedding of `scrape_links(results)`: scrape every record's link with one
`WebScraper`, building one output entry per input record, and return
`{'ok': True, 'results': scraped_results}` unconditionally. -/
def scrape_links (fetch : String → FetchOutcome) (input : SearchResults) :
    ScrapeLinksResult :=
  let scraped_results := input.results.map (fun r =>
    let scraped := WebScraper.scrape fetch r.link
    { title := r.title
      snippet := r.snippet
      url := r.link
      html_content := scraped.html_content
      error := if scraped.ok then none else scraped.error : ScrapedEntry })
  { ok := true, results := scraped_results }

/-! ## Financial data tool (src/stock_analyzer/stock.py) -/

/-- One entry of the `"Time Series (5min)"` JSON object: its timestamp key
and the numeric value of its `"4. close"` field.  Python parses the close
string with `float`; numeric values are modelled exactly as rationals. -/
structure TimeSeriesEntry where
  timestamp : String
  close : ℚ
deriving DecidableEq, Repr

/-- The decoded JSON body of the Alpha Vantage response, reduced to the
fields `get_share_price` inspects: the optional `"Time Series (5min)"`
object (its entries in JSON order), the optional `"Note"` and
`"Error Message"` fields, and `raw`, the textual form of the whole decoded
body that the fallback message interpolates. -/
structure StockApiResponse where
  timeSeries : Option (List TimeSeriesEntry)
  note : Option String
  errorMessage : Option String
  raw : String
deriving DecidableEq, Repr

/-- Outcome of the i-th HTTP request `get_share_price` would issue:
either a decoded JSON body, or the `str(e)` of an exception raised by
`requests.get` or `response.json()`. -/
inductive StockHttpOutcome where
  | response (data : StockApiResponse)
  | exn (e : String)
deriving DecidableEq, Repr

/-- Embedding of `sorted(keys)[-1]`: the last element of the ascending
lexicographic sort of a list of strings, i.e. its maximum; `none` models the
`IndexError` raised on an empty list. -/
def lastSorted (keys : List String) : Option String :=
  match keys with
  | [] => none
  | k :: rest => some (rest.foldl (fun a b => if a ≤ b then b else a) k)

/-- Embedding of the dict access `time_series[latest_timestamp]["4. close"]`:
the close value of the first entry carrying the given timestamp key (keys of
a Python dict are unique). -/
def lookupClose (ts : List TimeSeriesEntry) (k : String) : Option ℚ :=
  (ts.find? (fun e => e.timestamp == k)).map TimeSeriesEntry.close

/-- Round a rational to the nearest integer, ties to even — the rounding
Python's `format` applies when printing a float with `:.2f` (the model treats
the float as its exact value). -/
def roundHalfEven (q : ℚ) : ℤ :=
  let f : ℤ := ⌊q⌋
  let frac : ℚ := q - f
  if frac < 1/2 then f
  else if 1/2 < frac then f + 1
  else if f % 2 = 0 then f else f + 1

/-- Embedding of the Python format `f"{x:.2f}"` on the exact value of `x`:
the number rounded to two decimal places, always printing two digits after
the point. -/
def fmt2 (q : ℚ) : String :=
  let n : ℤ := roundHalfEven (q * 100)
  let sign := if n < 0 then "-" else ""
  let m := n.natAbs
  let cents := m % 100
  sign ++ toString (m / 100) ++ "." ++ (if cents < 10 then "0" else "") ++ toString cents

/-- Embedding of Python `str.upper()` (ticker symbols are ASCII, where
`Char.toUpper` agrees with Python): upper-case every character. -/
def pyUpper (s : String) : String := String.mk (s.toList.map Char.toUpper)

/-- Embedding of `get_share_price(ticker_symbol)`.  The `http` oracle gives
the outcome of the i-th outbound request the code might make; the code makes
exactly one, so only `http 0` is consulted.  Branches, in source order: a
present `"Time Series (5min)"` wins, then `"Note"`, then `"Error Message"`,
then the unexpected-format fallback; every raised exception (including the
`IndexError` of `sorted([])[-1]` on an empty time series, whose `str` is
`"list index out of range"`) is caught and rendered as the error-occurred
message.  The `lookupClose` miss branch is unreachable, since the maximum of
the key list is itself a key. -/
def get_share_price (ticker_symbol : String) (http : Nat → StockHttpOutcome) : String :=
  match http 0 with
  | .exn e =>
      "An error occurred while retrieving the price for " ++ ticker_symbol ++ ": " ++ e
  | .response data =>
      match data.timeSeries with
      | some time_series =>
          match lastSorted (time_series.map TimeSeriesEntry.timestamp) with
          | some latest_timestamp =>
              match lookupClose time_series latest_timestamp with
              | some latest_close =>
                  "The latest share price for " ++ pyUpper ticker_symbol ++
                    " is $" ++ fmt2 latest_close ++ "."
              | none =>
                  "An error occurred while retrieving the price for " ++
                    ticker_symbol ++ ": " ++ latest_timestamp
          | none =>
              "An error occurred while retrieving the price for " ++ ticker_symbol ++
                ": list index out of range"
      | none =>
          match data.note with
          | some n => "API notice: " ++ n ++ " Please try again later."
          | none =>
              match data.errorMessage with
              | some m =>
                  "Error: " ++ m ++ " Check if the symbol is correct or try again later."
              | none =>
                  "Unexpected API response or data format for " ++ ticker_symbol ++
                    ". (" ++ data.raw ++ ")"

/-! ## Google search tool (src/web_intelligence_agent/google_search_tool.py and
src/web_intelligence_agent/tools.py — the two copies of `GoogleSearchTool.search`
are logically identical and share this embedding) -/

/-- One element of the `items` list of the Custom Search API response; the
code reads `title`, `snippet` and `link` with defaulting `.get` access.  The
per-result dict the code builds has exactly the same three fields, so this
type also serves as the output entry type. -/
structure SearchItem where
  title : Option String
  snippet : Option String
  link : Option String
deriving DecidableEq, Repr

/-- The decoded search API response, reduced to the only field read:
`search_results.get('items', [])`. -/
structure SearchApiResponse where
  items : List SearchItem
deriving DecidableEq, Repr

/-- Outcome of the i-th HTTP request of `GoogleSearchTool.search`: a decoded
body, or the `str(e)` of a raised `requests.exceptions.RequestException`
(which includes non-2xx statuses raised by `raise_for_status` and JSON
decoding errors). -/
inductive SearchHttpOutcome where
  | response (r : SearchApiResponse)
  | exn (e : String)
deriving DecidableEq, Repr

/-- Return value of `GoogleSearchTool.search`: the success dict has no
`'error'` key, modelled as `error := none`. -/
structure SearchOutput where
  ok : Bool
  error : Option String
  results : List SearchItem
deriving DecidableEq, Repr

/-- Embedding of `GoogleSearchTool.search(query)`: one GET request with fixed
parameters; on success the `items` are reduced in order to title/snippet/link
records, on a `RequestException` the typed failure is returned.  Only
`http 0` is consulted: one attempt, no retry, no further page. -/
def GoogleSearchTool.search (http : Nat → SearchHttpOutcome) (query : String) :
    SearchOutput :=
  match http 0 with
  | .response search_results =>
      let results := search_results.items.map (fun item =>
        { title := item.title, snippet := item.snippet, link := item.link : SearchItem })
      { ok := true, error := none, results := results }
  | .exn e => { ok := false, error := some e, results := [] }

/-! ## HTTP front door (src/main.py) -/

/-- Python `str.isspace` characters in the ASCII range — the whitespace
`str.strip()` removes (the claim's inputs are ASCII queries). -/
def isPySpace (c : Char) : Bool :=
  c == ' ' || c == '\t' || c == '\n' || c == '\r' || c == '\x0b' || c == '\x0c'

/-- Embedding of Python `str.strip()`: drop leading and trailing
whitespace. -/
def pyStrip (s : String) : String :=
  String.mk (((s.toList.dropWhile isPySpace).reverse.dropWhile isPySpace).reverse)

/-- The `health_check` response: HTTP status code, the body's `status`
field, and the echoed `agent_status`. -/
structure HealthResult where
  status_code : Nat
  status : String
  agent_status : String
deriving DecidableEq, Repr

/-- Embedding of `GET /health` (`health_check` in src/main.py): the body is
built from the module-level `AGENT_STATUS` string; `"initialized"` maps to
200/healthy, anything else to 503/degraded.  (The handler's `except` arm,
producing 503/unhealthy, guards the body construction, which cannot raise;
it is dead code and has no branch here.) -/
def health_check (agent_status : String) : HealthResult :=
  { status_code := if agent_status = "initialized" then 200 else 503
    status := if agent_status = "initialized" then "healthy" else "degraded"
    agent_status := agent_status }

/-- The `InMemorySessionService` state: the list of created sessions as
(app_name, user_id, session_id) triples, in creation order. -/
structure SessionStore where
  sessions : List (String × String × String)
deriving DecidableEq, Repr

/-- The name the front door registers sessions under. -/
def APP_NAME : String := "chat_orchestrator_app"

/-- Outcome of driving the ADK runner for one request: the final response
text (defaulting to the fixed sentinel when no final event carried text), or
the `str(e)` of an exception escaping the runner. -/
inductive PipelineOutcome where
  | final (text : String)
  | exn (e : String)
deriving DecidableEq, Repr

/-- Result of one `POST /chat` request: an `HTTPException` with status code
and detail, or a `ChatResponse` with the final text and the session id. -/
inductive ChatResult where
  | httpError (status_code : Nat) (detail : String)
  | ok (response : String) (session_id : String)
deriving DecidableEq, Repr

/-- Embedding of `chat_with_agent` (src/main.py): given the module-level
agent status, the request fields, the session id `uuid4` would produce, the
pipeline outcome the runner would deliver, and the session-service state,
return the HTTP result, the new session-service state, and whether the
pipeline (runner) was invoked.  Guards in source order: non-initialized
agent → 503; whitespace-only query → 400, both before any session is
created; otherwise the session is created, the runner runs, and an escaping
exception becomes a 500 (the created session remains in the store). -/
def chat_with_agent (agent_status : String) (query : String) (user_id : String)
    (session_id : String) (pipeline : PipelineOutcome) (store : SessionStore) :
    ChatResult × SessionStore × Bool :=
  if agent_status ≠ "initialized" then
    (.httpError 503 ("Service unavailable: Agent status is \x27" ++ agent_status ++ "\x27"),
      store, false)
  else if pyStrip query = "" then
    (.httpError 400 "Query cannot be empty", store, false)
  else
    let store' : SessionStore := { sessions := store.sessions ++ [(APP_NAME, user_id, session_id)] }
    match pipeline with
    | .final text => (.ok text session_id, store', true)
    | .exn e =>
        (.httpError 500 ("An error occurred while processing your request: " ++ e),
          store', true)

/-! ## Agent pipeline wiring (src/chat_orchestrator/agent.py and
src/web_intelligence_agent/agent.py)

The repository composes agents with the ADK constructs `LlmAgent`,
`SequentialAgent` and `LoopAgent`.  The ADK is a third-party dependency, so
its constructs are modelled from their documented semantics: a run threads a
conversation (list of events) through the agents; an `LlmAgent` appends one
event produced by the LLM; a `SequentialAgent` runs its sub-agents in list
order, unconditionally and one after another, with no conditional dispatch
and no short-circuit; a `LoopAgent` repeats its sub-agent sequence up to
`max_iterations` times, stopping early only when a sub-agent event

escalates.  The final response of a run is the text of its last event. -/

/-- One event of an ADK run: the emitting agent's name, its text, and
whether its actions carry the escalation signal a `LoopAgent` ancestor
stops on. -/
structure Event where
  author : String
  text : String
  escalate : Bool
deriving DecidableEq, Repr

/-- The LLM reasoning oracle: from the responding agent's name and the
conversation so far, the model's response text and escalation flag. -/
abbrev LlmOracle : Type := String → List Event → String × Bool

/-- ADK `LlmAgent` semantics: one LLM call over the conversation so far,
appending one event authored by this agent. -/
def LlmAgent.run (o : LlmOracle) (name : String) (conv : List Event) : List Event :=
  let r := o name conv
  conv ++ [⟨name, r.1, r.2⟩]

/-- ADK `SequentialAgent` semantics: run every sub-agent in list order, each
seeing the conversation extended by its predecessors.  There is no
conditional dispatch: all sub-agents run on every request. -/
def SequentialAgent.run (subAgents : List (List Event → List Event))
    (conv : List Event) : List Event :=
  subAgents.foldl (fun c sub => sub c) conv

/-- ADK `LoopAgent` semantics: repeat the sub-agent sequence, at most
`max_iterations` times (first argument), stopping early when an event
produced during an iteration escalates. -/
def LoopAgent.run (subAgents : List (List Event → List Event)) :
    Nat → List Event → List Event
  | 0, conv => conv
  | n + 1, conv =>
      let conv' := SequentialAgent.run subAgents conv
      if (conv'.drop conv.length).any Event.escalate then conv'
      else LoopAgent.run subAgents n conv'

/-- `search_and_scrape_sequence` (src/web_intelligence_agent/agent.py): a
`SequentialAgent` running `data_gatherer_agent` then `optimizer_agent`. -/
def search_and_scrape_sequence (o : LlmOracle) : List Event → List Event :=
  SequentialAgent.run
    [LlmAgent.run o "data_gatherer_agent",
     LlmAgent.run o "optimizer_agent"]

/-- `root_agent` of src/web_intelligence_agent/agent.py: a `LoopAgent` over
`search_and_scrape_sequence` with `max_iterations=3`. -/
def web_intelligence_agent (o : LlmOracle) : List Event → List Event :=
  LoopAgent.run [search_and_scrape_sequence o] 3

/-- `root_agent` of src/chat_orchestrator/agent.py: a `SequentialAgent`
whose sub-agents are, in order, `router_agent`, `data_researcher_agent`
(the financial specialist), `web_intelligence_agent` (the web specialist),
and `synthesizer_agent`. -/
def chat_orchestrator_agent (o : LlmOracle) : List Event → List Event :=
  SequentialAgent.run
    [LlmAgent.run o "router_agent",
     LlmAgent.run o "data_researcher_agent",
     web_intelligence_agent o,
     LlmAgent.run o "synthesizer_agent"]

/-- The final response of a run: the text of the last event of the
conversation. -/
def finalResponse (events : List Event) : Option String :=
  events.getLast?.map Event.text

/-- Number of events authored by a given agent: one per invocation of that
`LlmAgent`, so for `data_gatherer_agent` it counts the iterations of the
search-and-refine sequence. -/
def countAuthor (name : String) (events : List Event) : Nat :=
  events.countP (fun e => e.author == name)

/-! ## Concrete instances used to witness the theorems -/

/-- A concrete fetch behavior: one reachable URL, every other URL fails. -/
def demoFetch : String → FetchOutcome := fun url =>
  if url = "https://ok.example" then FetchOutcome.success "<html/>"
  else FetchOutcome.failure "boom"

/-- A concrete two-record search-results batch whose second link is
unreachable under `demoFetch`. -/
def demoSearchResults : SearchResults :=
  { results :=
      [ { title := some "t1", snippet := some "s1", link := "https://ok.example" },
        { title := some "t2", snippet := some "s2", link := "https://down.example" } ] }

/-- A concrete Alpha Vantage outcome: a two-entry intraday time series whose
later timestamp closes at 150.25. -/
def demoStockHttp : Nat → StockHttpOutcome := fun _ =>
  StockHttpOutcome.response
    { timeSeries := some
        [ { timestamp := "2025-11-02 19:55:00", close := 150 },
          { timestamp := "2025-11-02 20:00:00", close := (15025 : ℚ) / 100 } ]
      note := none
      errorMessage := none
      raw := "" }

/-- The later entry of `demoStockHttp`, the one the adapter must report. -/
def demoLatestEntry : TimeSeriesEntry :=
  { timestamp := "2025-11-02 20:00:00", close := (15025 : ℚ) / 100 }

/-- A concrete search API outcome with two ranked items. -/
def demoSearchHttp : Nat → SearchHttpOutcome := fun _ =>
  SearchHttpOutcome.response
    { items :=
        [ { title := some "a", snippet := some "sa", link := some "https://a.example" },
          { title := some "b", snippet := none, link := some "https://b.example" } ] }

/-- An LLM oracle on which the router's decision is ambiguous: the router
emits a clarification request instead of a route; the other agents respond
with fixed texts and never escalate. -/
def clarifyingOracle : LlmOracle := fun name _ =>
  if name = "router_agent" then
    ("Could you clarify whether you need financial data or web search results?", false)
  else if name = "synthesizer_agent" then ("synthesized answer", false)
  else ("specialist output", false)

/-! ## Claim theorems -/

/-- C10: for every input search-results dictionary and every fetch behavior —
including one where every single link fails to fetch — `scrape_links`
returns `'ok': True` at the top level of its result; the batch-level success
flag never reflects per-item failures, so a caller must inspect each entry's
`error` field to detect failures. -/
theorem scrape_links_top_level_ok (fetch : String → FetchOutcome)
    (input : SearchResults) : (scrape_links fetch input).ok = true := rfl

/-- C1: for every input whose `results` field is a list of N search records,
`scrape_links` returns a `results` list of exactly length N in the same
order; each output entry preserves the input entry's title, snippet and link
(as `url`) unchanged, and carries non-null `html_content` with null `error`
when that link's fetch succeeded, or null `html_content` with a non-null
`error` string when it failed.  A failure on one link does not drop, reorder
or alter the entries for the other links: the i-th output entry is
determined by the i-th input record alone. -/
theorem scrape_links_preserves_entries (fetch : String → FetchOutcome)
    (input : SearchResults) :
    (scrape_links fetch input).results.length = input.results.length ∧
    ∀ i r, input.results.get? i = some r →
      ∃ e, (scrape_links fetch input).results.get? i = some e ∧
        e.title = r.title ∧ e.snippet = r.snippet ∧ e.url = r.link ∧
        (∀ html, fetch r.link = FetchOutcome.success html →
          e.html_content = some html ∧ e.error = none) ∧
        (∀ msg, fetch r.link = FetchOutcome.failure msg →
          e.html_content = none ∧ e.error = some msg) := by
  constructor
  · simp [scrape_links]
  · intro i r hr
    refine ⟨{ title := r.title, snippet := r.snippet, url := r.link,
              html_content := (WebScraper.scrape fetch r.link).html_content,
              error := if (WebScraper.scrape fetch r.link).ok then none
                       else (WebScraper.scrape fetch r.link).error },
            ?_, rfl, rfl, rfl, ?_, ?_⟩
    · have hr' : input.results[i]? = some r := by
        rwa [List.get?_eq_getElem?] at hr
      simp only [scrape_links, List.get?_eq_getElem?, List.getElem?_map, hr',
        Option.map_some']
    · intro html hh
      simp [WebScraper.scrape, hh]
    · intro msg hm
      simp [WebScraper.scrape, hm]

/-- Witness for C1: in the two-record batch whose second link is
unreachable, the second output entry keeps its title/snippet/link and
carries a null `html_content` with the fetch error, while the first output
entry carries the fetched markup with a null `error`. -/
theorem scrape_links_preserves_entries_witness :
    (∃ e, (scrape_links demoFetch demoSearchResults).results.get? 0 = some e ∧
      e.html_content = some "<html/>" ∧ e.error = none) ∧
    (∃ e, (scrape_links demoFetch demoSearchResults).results.get? 1 = some e ∧
      e.title = some "t2" ∧ e.snippet = some "s2" ∧ e.url = "https://down.example" ∧
      e.html_content = none ∧ e.error = some "boom") := by
  obtain ⟨-, h⟩ := scrape_links_preserves_entries demoFetch demoSearchResults
  constructor
  · obtain ⟨e, he, -, -, -, hs, -⟩ :=
      h 0 { title := some "t1", snippet := some "s1", link := "https://ok.example" }
        (by decide)
    obtain ⟨h1, h2⟩ := hs "<html/>" (by decide)
    exact ⟨e, he, h1, h2⟩
  · obtain ⟨e, he, ht, hsn, hu, -, hf⟩ :=
      h 1 { title := some "t2", snippet := some "s2", link := "https://down.example" }
        (by decide)
    obtain ⟨h1, h2⟩ := hf "boom" (by decide)
    exact ⟨e, he, ht, hsn, hu, h1, h2⟩

/-- The fold underlying `lastSorted` returns an element of `k :: rest` that
bounds every element of `k :: rest` from above. -/
theorem foldl_maxStr_spec (rest : List String) (k : String) :
    rest.foldl (fun a b => if a ≤ b then b else a) k ∈ k :: rest ∧
    ∀ x ∈ k :: rest, x ≤ rest.foldl (fun a b => if a ≤ b then b else a) k := by
  induction rest generalizing k with
  | nil => simp
  | cons b rest ih =>
    obtain ⟨hmem, hub⟩ := ih (if k ≤ b then b else k)
    have hfold : (b :: rest).foldl (fun a c => if a ≤ c then c else a) k =
        rest.foldl (fun a c => if a ≤ c then c else a) (if k ≤ b then b else k) := by
      simp [List.foldl_cons]
    have hkstep : k ≤ (if k ≤ b then b else k) := by
      by_cases hkb : k ≤ b <;> simp [hkb]
    have hbstep : b ≤ (if k ≤ b then b else k) := by
      by_cases hkb : k ≤ b
      · simp [hkb]
      · simp only [if_neg hkb]
        exact le_of_not_le hkb
    have hstep : (if k ≤ b then b else k) ≤
        rest.foldl (fun a c => if a ≤ c then c else a) (if k ≤ b then b else k) :=
      hub _ (List.mem_cons_self _ _)
    constructor
    · rw [hfold]
      rcases List.mem_cons.mp hmem with h | h
      · rw [h]
        by_cases hkb : k ≤ b <;> simp [hkb]
      · exact List.mem_cons_of_mem _ (List.mem_cons_of_mem _ h)
    · intro x hx
      rw [hfold]
      rcases List.mem_cons.mp hx with rfl | hx'
      · exact le_trans hkstep hstep
      · rcases List.mem_cons.mp hx' with rfl | hx''
        · exact le_trans hbstep hstep
        · exact hub _ (List.mem_cons_of_mem _ hx'')

/-- On a non-empty key list, `lastSorted` returns its maximum, which is one
of the keys. -/
theorem lastSorted_spec (keys : List String) (hne : keys ≠ []) :
    ∃ m, lastSorted keys = some m ∧ m ∈ keys ∧ ∀ x ∈ keys, x ≤ m := by
  match keys, hne with
  | k :: rest, _ =>
    obtain ⟨hmem, hub⟩ := foldl_maxStr_spec rest k
    exact ⟨_, rfl, hmem, hub⟩

/-- When timestamps are pairwise distinct (as keys of a Python dict are),
finding an entry by the timestamp of a member returns that member. -/
theorem find?_timestamp_nodup (ts : List TimeSeriesEntry) (e : TimeSeriesEntry)
    (hnd : (ts.map TimeSeriesEntry.timestamp).Nodup) (he : e ∈ ts) :
    ts.find? (fun x => x.timestamp == e.timestamp) = some e := by
  induction ts with
  | nil => cases he
  | cons t rest ih =>
    simp only [List.map_cons, List.nodup_cons] at hnd
    rcases List.mem_cons.mp he with rfl | hmem
    · rw [List.find?_cons_of_pos]
      simp
    · have hne : t.timestamp ≠ e.timestamp := by
        intro h
        exact hnd.1 (h ▸ List.mem_map_of_mem _ hmem)
      rw [List.find?_cons_of_neg]
      · exact ih hnd.2 hmem
      · simp [hne]

/-- C2: for every ticker symbol and every API response containing a
non-empty `"Time Series (5min)"` map, `get_share_price` returns a success
string reporting the `"4. close"` value of the entry whose timestamp key is
greatest under lexicographic string ordering, formatted to two decimal
places, for the upper-cased ticker symbol. -/
theorem get_share_price_latest (ticker : String) (http : Nat → StockHttpOutcome)
    (data : StockApiResponse) (ts : List TimeSeriesEntry) (e : TimeSeriesEntry)
    (hhttp : http 0 = StockHttpOutcome.response data)
    (hts : data.timeSeries = some ts)
    (hnd : (ts.map TimeSeriesEntry.timestamp).Nodup)
    (he : e ∈ ts)
    (hmax : ∀ x ∈ ts, x.timestamp ≤ e.timestamp) :
    get_share_price ticker http =
      "The latest share price for " ++ pyUpper ticker ++ " is $" ++ fmt2 e.close ++ "." := by
  have hne : ts.map TimeSeriesEntry.timestamp ≠ [] := by
    cases ts
    · cases he
    · simp
  obtain ⟨m, hm, hmem, hub⟩ := lastSorted_spec _ hne
  obtain ⟨x, hx, hxm⟩ := List.mem_map.mp hmem
  have hme : m = e.timestamp :=
    le_antisymm (hxm ▸ hmax x hx) (hub _ (List.mem_map_of_mem _ he))
  have hlook : lookupClose ts m = some e.close := by
    rw [hme]
    unfold lookupClose
    rw [find?_timestamp_nodup ts e hnd he]
    rfl
  simp only [get_share_price, hhttp, hts, hm, hlook]

/-- Witness for C2: on the concrete two-entry series of `demoStockHttp`, the
adapter reports the 20:00 close 150.25 for the upper-cased ticker. -/
theorem get_share_price_latest_witness :
    get_share_price "aapl" demoStockHttp =
      "The latest share price for AAPL is $150.25." := by
  have h := get_share_price_latest "aapl" demoStockHttp
    { timeSeries := some
        [ { timestamp := "2025-11-02 19:55:00", close := 150 },
          { timestamp := "2025-11-02 20:00:00", close := (15025 : ℚ) / 100 } ]
      note := none
      errorMessage := none
      raw := "" }
    [ { timestamp := "2025-11-02 19:55:00", close := 150 },
      { timestamp := "2025-11-02 20:00:00", close := (15025 : ℚ) / 100 } ]
    demoLatestEntry rfl rfl (by decide)
    (List.mem_cons_of_mem _ (List.mem_cons_self _ _))
    (by
      intro x hx
      rcases List.mem_cons.mp hx with rfl | hx'
      · show ("2025-11-02 19:55:00" : String) ≤ "2025-11-02 20:00:00"
        rw [String.le_iff_toList_le]
        decide
      · rcases List.mem_cons.mp hx' with rfl | hx''
        · exact le_refl _
        · cases hx'')
  rw [h]
  have hup : pyUpper "aapl" = "AAPL" := by decide
  have hf : fmt2 demoLatestEntry.close = "150.25" := by
    show fmt2 ((15025 : ℚ) / 100) = "150.25"
    have h100 : ((15025 : ℚ) / 100) * 100 = (15025 : ℚ) := by norm_num
    unfold fmt2 roundHalfEven
    rw [h100]
    norm_num
    rfl
  rw [hup, hf]
  rfl

/-- C3: `get_share_price` makes at most one outbound HTTP request (its
result depends only on the outcome of request 0 — no retry, no backoff),
never raises (it is a total function into `String`), and on a rate-limit
notice, an API error message, a raised exception, or a response lacking all
expected fields it returns the corresponding failure or unexpected-format
message embedding the human-readable reason (branch order as in the source:
time series, then `Note`, then `Error Message`, then the fallback). -/
theorem get_share_price_error_handling (ticker : String) :
    (∀ http http' : Nat → StockHttpOutcome, http 0 = http' 0 →
      get_share_price ticker http = get_share_price ticker http') ∧
    (∀ (http : Nat → StockHttpOutcome) e, http 0 = StockHttpOutcome.exn e →
      get_share_price ticker http =
        "An error occurred while retrieving the price for " ++ ticker ++ ": " ++ e) ∧
    (∀ (http : Nat → StockHttpOutcome) data n,
      http 0 = StockHttpOutcome.response data → data.timeSeries = none →
      data.note = some n →
      get_share_price ticker http = "API notice: " ++ n ++ " Please try again later.") ∧
    (∀ (http : Nat → StockHttpOutcome) data m,
      http 0 = StockHttpOutcome.response data → data.timeSeries = none →
      data.note = none → data.errorMessage = some m →
      get_share_price ticker http =
        "Error: " ++ m ++ " Check if the symbol is correct or try again later.") ∧
    (∀ (http : Nat → StockHttpOutcome) data,
      http 0 = StockHttpOutcome.response data → data.timeSeries = none →
      data.note = none → data.errorMessage = none →
      get_share_price ticker http =
        "Unexpected API response or data format for " ++ ticker ++ ". (" ++ data.raw ++ ")") := by
  refine ⟨?_, ?_, ?_, ?_, ?_⟩
  · intro http http' h
    simp only [get_share_price, h]
  · intro http e h
    simp only [get_share_price, h]
  · intro http data n h hts hn
    simp only [get_share_price, h, hts, hn]
  · intro http data m h hts hn hm
    simp only [get_share_price, h, hts, hn, hm]
  · intro http data h hts hn hm
    simp only [get_share_price, h, hts, hn, hm]

/-- Witness for C3, exercising three branches at concrete inputs: a raised
exception, a rate-limit notice, and a response lacking every expected
field. -/
theorem get_share_price_error_handling_witness :
    get_share_price "TSLA" (fun _ => StockHttpOutcome.exn "timeout") =
      "An error occurred while retrieving the price for TSLA: timeout" ∧
    get_share_price "TSLA" (fun _ => StockHttpOutcome.response
        { timeSeries := none, note := some "rate limited.", errorMessage := none, raw := "" }) =
      "API notice: rate limited. Please try again later." ∧
    get_share_price "TSLA" (fun _ => StockHttpOutcome.response
        { timeSeries := none, note := none, errorMessage := none, raw := "\x7b\x7d" }) =
      "Unexpected API response or data format for TSLA. (\x7b\x7d)" := by
  refine ⟨?_, ?_, ?_⟩
  · exact (get_share_price_error_handling "TSLA").2.1 _ "timeout" rfl
  · exact (get_share_price_error_handling "TSLA").2.2.1 _
      { timeSeries := none, note := some "rate limited.", errorMessage := none, raw := "" }
      "rate limited." rfl rfl rfl
  · exact (get_share_price_error_handling "TSLA").2.2.2.2 _
      { timeSeries := none, note := none, errorMessage := none, raw := "\x7b\x7d" }
      rfl rfl rfl rfl

/-- C4: `GoogleSearchTool.search` converts any transport/HTTP error of its
single outbound request into exactly
`{'ok': False, 'error': str(e), 'results': []}`; on success it returns
`{'ok': True, ...}` where `results` lists the API's `items` in the order the
API returned them, each reduced to its title/snippet/link fields (the
reduced record carries exactly those three fields, so the reduced list
equals `items`); and its result depends only on the outcome of request 0 —
no retry, no page beyond the first. -/
theorem google_search_error_handling (query : String) :
    (∀ (http : Nat → SearchHttpOutcome) e, http 0 = SearchHttpOutcome.exn e →
      GoogleSearchTool.search http query =
        { ok := false, error := some e, results := [] }) ∧
    (∀ (http : Nat → SearchHttpOutcome) r, http 0 = SearchHttpOutcome.response r →
      GoogleSearchTool.search http query =
        { ok := true, error := none, results := r.items }) ∧
    (∀ http http' : Nat → SearchHttpOutcome, http 0 = http' 0 →
      GoogleSearchTool.search http query = GoogleSearchTool.search http' query) := by
  refine ⟨?_, ?_, ?_⟩
  · intro http e h
    simp only [GoogleSearchTool.search, h]
  · intro http r h
    simp only [GoogleSearchTool.search, h]
    rw [show (fun item : SearchItem =>
          ({ title := item.title, snippet := item.snippet, link := item.link } : SearchItem)) = id
        from rfl,
      List.map_id]
  · intro http http' h
    simp only [GoogleSearchTool.search, h]

/-- Witness for C4 at concrete inputs: a failing request yields the typed
failure with an empty result list; `demoSearchHttp` yields the two items in
API order. -/
theorem google_search_error_handling_witness :
    GoogleSearchTool.search (fun _ => SearchHttpOutcome.exn "503 Server Error") "news" =
      { ok := false, error := some "503 Server Error", results := [] } ∧
    GoogleSearchTool.search demoSearchHttp "news" =
      { ok := true, error := none,
        results :=
          [ { title := some "a", snippet := some "sa", link := some "https://a.example" },
            { title := some "b", snippet := none, link := some "https://b.example" } ] } := by
  constructor
  · exact (google_search_error_handling "news").1 _ "503 Server Error" rfl
  · exact (google_search_error_handling "news").2.1 demoSearchHttp
      { items :=
          [ { title := some "a", snippet := some "sa", link := some "https://a.example" },
            { title := some "b", snippet := none, link := some "https://b.example" } ] }
      rfl

/-- A string all of whose characters are Python whitespace strips to the
empty string. -/
theorem pyStrip_of_all_space (s : String) (h : ∀ c ∈ s.toList, isPySpace c = true) :
    pyStrip s = "" := by
  unfold pyStrip
  have h1 : s.toList.dropWhile isPySpace = [] := List.dropWhile_eq_nil_iff.mpr h
  rw [h1]
  rfl

/-- C5: with the agent initialized, a `POST /chat` request whose query is
empty or consists only of whitespace is rejected with HTTP 400, before any
session is created (the session service state is returned unchanged) and
before the pipeline is invoked (the invoked flag is `false`) — for every
user id, generated session id, pipeline behavior, and prior session-store
state. -/
theorem chat_rejects_blank_query (query user_id session_id : String)
    (pipeline : PipelineOutcome) (store : SessionStore)
    (hblank : ∀ c ∈ query.toList, isPySpace c = true) :
    chat_with_agent "initialized" query user_id session_id pipeline store =
      (ChatResult.httpError 400 "Query cannot be empty", store, false) := by
  have hs := pyStrip_of_all_space query hblank
  simp [chat_with_agent, hs]

/-- Witness for C5: a whitespace-only query is rejected with 400, leaving a
one-session store untouched and the pipeline uninvoked. -/
theorem chat_rejects_blank_query_witness :
    chat_with_agent "initialized" "  \t " "user123" "session_1"
        (PipelineOutcome.final "unused")
        { sessions := [("chat_orchestrator_app", "u0", "s0")] } =
      (ChatResult.httpError 400 "Query cannot be empty",
        { sessions := [("chat_orchestrator_app", "u0", "s0")] }, false) :=
  chat_rejects_blank_query "  \t " "user123" "session_1"
    (PipelineOutcome.final "unused")
    { sessions := [("chat_orchestrator_app", "u0", "s0")] }
    (by decide)

/-- C6: `GET /health` answers 200 with body status `healthy` exactly when
agent initialization succeeded (the status string equals `"initialized"`),
and 503 with body status `degraded` or `unhealthy` exactly when it did not;
it never reports healthy with a failed agent nor degraded/unhealthy with an
initialized agent. -/
theorem health_status_consistent (agent_status : String) :
    ((health_check agent_status).status_code = 200 ∧
      (health_check agent_status).status = "healthy" ↔ agent_status = "initialized") ∧
    ((health_check agent_status).status_code = 503 ∧
      ((health_check agent_status).status = "degraded" ∨
        (health_check agent_status).status = "unhealthy") ↔ agent_status ≠ "initialized") := by
  by_cases h : agent_status = "initialized" <;> simp [health_check, h]

/-- Witness for C6 at both concrete statuses: an initialized agent reports
200/healthy, a failed initialization reports 503/degraded. -/
theorem health_status_consistent_witness :
    ((health_check "initialized").status_code = 200 ∧
      (health_check "initialized").status = "healthy") ∧
    ((health_check "error: boom").status_code = 503 ∧
      ((health_check "error: boom").status = "degraded" ∨
        (health_check "error: boom").status = "unhealthy")) :=
  ⟨(health_status_consistent "initialized").1.mpr rfl,
   (health_status_consistent "error: boom").2.mpr (by decide)⟩

/-- One `LlmAgent` run appends exactly one event, authored by that agent. -/
theorem llm_run_eq (o : LlmOracle) (name : String) (conv : List Event) :
    LlmAgent.run o name conv = conv ++ [⟨name, (o name conv).1, (o name conv).2⟩] := rfl

/-- One pass of `search_and_scrape_sequence` appends exactly two events: one
by the data gatherer, then one by the optimizer. -/
theorem sss_append (o : LlmOracle) (conv : List Event) :
    ∃ g op : Event, search_and_scrape_sequence o conv = conv ++ [g, op] ∧
      g.author = "data_gatherer_agent" ∧ op.author = "optimizer_agent" := by
  refine ⟨⟨"data_gatherer_agent", (o "data_gatherer_agent" conv).1,
      (o "data_gatherer_agent" conv).2⟩,
    ⟨"optimizer_agent",
      (o "optimizer_agent" (LlmAgent.run o "data_gatherer_agent" conv)).1,
      (o "optimizer_agent" (LlmAgent.run o "data_gatherer_agent" conv)).2⟩,
    ?_, rfl, rfl⟩
  show LlmAgent.run o "optimizer_agent" (LlmAgent.run o "data_gatherer_agent" conv) = _
  rw [llm_run_eq, llm_run_eq, List.append_assoc]
  rfl

/-- Each pass of the search-and-refine sequence produces exactly one
data-gatherer event. -/
theorem countAuthor_sss (o : LlmOracle) (conv : List Event) :
    countAuthor "data_gatherer_agent" (search_and_scrape_sequence o conv) =
      countAuthor "data_gatherer_agent" conv + 1 := by
  obtain ⟨g, op, hseq, hg, hop⟩ := sss_append o conv
  rw [hseq]
  unfold countAuthor
  rw [List.countP_append]
  simp [List.countP_cons, hg, hop]

/-- A `LoopAgent` over the search-and-refine sequence with bound `n` adds at
most `n` data-gatherer events, for every oracle — even one that never
signals convergence. -/
theorem countAuthor_loop_le (o : LlmOracle) (n : Nat) (conv : List Event) :
    countAuthor "data_gatherer_agent"
        (LoopAgent.run [search_and_scrape_sequence o] n conv) ≤
      countAuthor "data_gatherer_agent" conv + n := by
  induction n generalizing conv with
  | zero => simp [LoopAgent.run]
  | succ k ih =>
    have hstep : SequentialAgent.run [search_and_scrape_sequence o] conv =
        search_and_scrape_sequence o conv := by
      simp [SequentialAgent.run]
    have hcount : countAuthor "data_gatherer_agent"
        (SequentialAgent.run [search_and_scrape_sequence o] conv) =
        countAuthor "data_gatherer_agent" conv + 1 := by
      rw [hstep, countAuthor_sss]
    simp only [LoopAgent.run]
    split
    · omega
    · have h1 := ih (SequentialAgent.run [search_and_scrape_sequence o] conv)
      omega

/-- C8: the loop-based web-intelligence controller executes the
search-and-refine sequence (data gatherer followed by optimizer) at most 3
times — the configured `max_iterations` — for every oracle behavior,
including one whose refinement stage keeps requesting more (never
escalates); the loop is a total function, so it always terminates.
Iterations are counted by the data-gatherer events they emit, exactly one
per iteration by `countAuthor_sss`. -/
theorem web_loop_bounded (o : LlmOracle) (conv : List Event) :
    countAuthor "data_gatherer_agent" (web_intelligence_agent o conv) ≤
      countAuthor "data_gatherer_agent" conv + 3 :=
  countAuthor_loop_le o 3 conv

/-- The loop over the search-and-refine sequence only appends events, all of
them authored by the gatherer or the optimizer. -/
theorem loop_append_authors (o : LlmOracle) (n : Nat) (conv : List Event) :
    ∃ ws : List Event,
      LoopAgent.run [search_and_scrape_sequence o] n conv = conv ++ ws ∧
      ∀ e ∈ ws, e.author = "data_gatherer_agent" ∨ e.author = "optimizer_agent" := by
  induction n generalizing conv with
  | zero =>
    refine ⟨[], by simp [LoopAgent.run], by simp⟩
  | succ k ih =>
    obtain ⟨g, op, hseq, hg, hop⟩ := sss_append o conv
    have hstep : SequentialAgent.run [search_and_scrape_sequence o] conv =
        conv ++ [g, op] := by
      simpa [SequentialAgent.run] using hseq
    simp only [LoopAgent.run]
    split
    · refine ⟨[g, op], hstep, ?_⟩
      intro e he
      rcases List.mem_cons.mp he with rfl | he'
      · exact Or.inl hg
      · rcases List.mem_cons.mp he' with rfl | he''
        · exact Or.inr hop
        · cases he''
    · obtain ⟨ws, hws, hauth⟩ := ih (SequentialAgent.run [search_and_scrape_sequence o] conv)
      refine ⟨[g, op] ++ ws, ?_, ?_⟩
      · rw [hws, hstep, List.append_assoc]
      · intro e he
        rcases List.mem_append.mp he with he' | he'
        · rcases List.mem_cons.mp he' with rfl | he''
          · exact Or.inl hg
          · rcases List.mem_cons.mp he'' with rfl | he'''
            · exact Or.inr hop
            · cases he'''
        · exact hauth e he'

/-- C9: the `chat_orchestrator_agent` run extends the conversation with, in
order, the router's event, the financial specialist's event, the web
specialist's events, and the synthesizer's event.  The ordered sequence the
synthesizer receives therefore always places the financial specialist's
output before every web-specialist event, and — the stages being composed
strictly sequentially, each one a function of its predecessor's completed
output — the financial specialist runs to completion before the web
specialist starts, regardless of how long any underlying adapter call
takes. -/
theorem financial_before_web_for_synth (o : LlmOracle) (conv : List Event) :
    ∃ (routerEv finEv synthEv : Event) (webEvs : List Event),
      chat_orchestrator_agent o conv =
        conv ++ [routerEv, finEv] ++ webEvs ++ [synthEv] ∧
      routerEv.author = "router_agent" ∧
      finEv.author = "data_researcher_agent" ∧
      (∀ e ∈ webEvs, e.author = "data_gatherer_agent" ∨ e.author = "optimizer_agent") ∧
      synthEv.author = "synthesizer_agent" := by
  obtain ⟨ws, hws, hauth⟩ := loop_append_authors o 3
    (LlmAgent.run o "data_researcher_agent" (LlmAgent.run o "router_agent" conv))
  refine ⟨⟨"router_agent", (o "router_agent" conv).1, (o "router_agent" conv).2⟩,
    ⟨"data_researcher_agent",
      (o "data_researcher_agent" (LlmAgent.run o "router_agent" conv)).1,
      (o "data_researcher_agent" (LlmAgent.run o "router_agent" conv)).2⟩,
    ⟨"synthesizer_agent",
      (o "synthesizer_agent" (LlmAgent.run o "data_researcher_agent"
        (LlmAgent.run o "router_agent" conv) ++ ws)).1,
      (o "synthesizer_agent" (LlmAgent.run o "data_researcher_agent"
        (LlmAgent.run o "router_agent" conv) ++ ws)).2⟩,
    ws, ?_, rfl, rfl, hauth, rfl⟩
  show LlmAgent.run o "synthesizer_agent"
      (LoopAgent.run [search_and_scrape_sequence o] 3
        (LlmAgent.run o "data_researcher_agent" (LlmAgent.run o "router_agent" conv))) = _
  rw [hws, llm_run_eq o "synthesizer_agent"]
  rw [llm_run_eq o "data_researcher_agent", llm_run_eq o "router_agent"]
  simp only [List.append_assoc, List.cons_append, List.nil_append, List.singleton_append]

/-- A loop with a positive iteration bound always runs its body at least
once, so its result contains a data-gatherer event. -/
theorem loop_contains_gatherer (o : LlmOracle) (n : Nat) (hn : n ≠ 0)
    (conv : List Event) :
    ∃ e ∈ LoopAgent.run [search_and_scrape_sequence o] n conv,
      e.author = "data_gatherer_agent" := by
  match n, hn with
  | k + 1, _ =>
    obtain ⟨g, op, hseq, hg, hop⟩ := sss_append o conv
    have hstep : SequentialAgent.run [search_and_scrape_sequence o] conv =
        conv ++ [g, op] := by
      simpa [SequentialAgent.run] using hseq
    simp only [LoopAgent.run]
    split
    · refine ⟨g, ?_, hg⟩
      rw [hstep]
      simp
    · obtain ⟨ws, hws, -⟩ :=
        loop_append_authors o k (SequentialAgent.run [search_and_scrape_sequence o] conv)
      refine ⟨g, ?_, hg⟩
      rw [hws, hstep]
      simp

/-- C7 counterexample: on `clarifyingOracle` — a concrete run in which the
router's decision is ambiguous and its emitted event is a clarification
request instead of a route — the pipeline still invokes the financial
specialist and the web specialist's gatherer, and the final response is the
synthesizer's output, not the router's clarification request.  The
`SequentialAgent` wiring of `root_agent` has no short-circuit: the claim is
false on the code. -/
theorem router_clarification_not_propagated :
    (∃ e ∈ chat_orchestrator_agent clarifyingOracle [],
      e.author = "data_researcher_agent") ∧
    (∃ e ∈ chat_orchestrator_agent clarifyingOracle [],
      e.author = "data_gatherer_agent") ∧
    finalResponse (chat_orchestrator_agent clarifyingOracle []) =
      some "synthesized answer" ∧
    finalResponse (chat_orchestrator_agent clarifyingOracle []) ≠
      some "Could you clarify whether you need financial data or web search results?" := by
  decide

/-- C7 amended: the router stage may emit a clarification request, but the
sequential pipeline controller does not short-circuit on it: for every
oracle — in particular one whose router decision is ambiguous — the
financial specialist and the web specialist still run, and the final
response is the synthesizer's event, not the router's clarification
propagated directly. -/
theorem router_clarification_amended (o : LlmOracle) (conv : List Event) :
    (∃ e ∈ chat_orchestrator_agent o conv, e.author = "data_researcher_agent") ∧
    (∃ e ∈ chat_orchestrator_agent o conv, e.author = "data_gatherer_agent") ∧
    (∃ synthEv, (chat_orchestrator_agent o conv).getLast? = some synthEv ∧
      synthEv.author = "synthesizer_agent") := by
  obtain ⟨ws, hws, -⟩ := loop_append_authors o 3
    (LlmAgent.run o "data_researcher_agent" (LlmAgent.run o "router_agent" conv))
  have hrun : chat_orchestrator_agent o conv =
      (LlmAgent.run o "data_researcher_agent" (LlmAgent.run o "router_agent" conv) ++ ws) ++
        [⟨"synthesizer_agent",
          (o "synthesizer_agent" (LlmAgent.run o "data_researcher_agent"
            (LlmAgent.run o "router_agent" conv) ++ ws)).1,
          (o "synthesizer_agent" (LlmAgent.run o "data_researcher_agent"
            (LlmAgent.run o "router_agent" conv) ++ ws)).2⟩] := by
    show LlmAgent.run o "synthesizer_agent"
        (LoopAgent.run [search_and_scrape_sequence o] 3
          (LlmAgent.run o "data_researcher_agent" (LlmAgent.run o "router_agent" conv))) = _
    rw [hws, llm_run_eq]
  refine ⟨?_, ?_, ?_⟩
  · refine ⟨⟨"data_researcher_agent",
      (o "data_researcher_agent" (LlmAgent.run o "router_agent" conv)).1,
      (o "data_researcher_agent" (LlmAgent.run o "router_agent" conv)).2⟩, ?_, rfl⟩
    rw [hrun]
    apply List.mem_append_left
    apply List.mem_append_left
    rw [llm_run_eq o "data_researcher_agent"]
    exact List.mem_append_right _ (List.mem_cons_self _ _)
  · obtain ⟨e, he, hge⟩ := loop_contains_gatherer o 3 (by decide)
      (LlmAgent.run o "data_researcher_agent" (LlmAgent.run o "router_agent" conv))
    rw [hws] at he
    exact ⟨e, by rw [hrun]; exact List.mem_append_left _ he, hge⟩
  · exact ⟨_, by rw [hrun]; exact List.getLast?_concat _, rfl⟩

end StockSage
